import Mathlib

/-!
Shallow embedding of the client-side Price Alert & Aggregation Engine of the
Unilag-Price-saver repository (files `app/frontend/js/user-dashboard.js`,
`app/frontend/js/admin-dashboard.js`, `app/frontend/js/utils.js` and the
small-utilities module).

Conventions of the embedding:
* JavaScript numbers are modelled as rationals (ℚ); a missing or non-numeric
  field value is `Option.none`.  `parseFloat` is modelled on decimal literals
  (optional sign, integer digits, optional fraction), which covers every
  value the dashboards feed it.
* Strings are Lean `String`s; `toLowerCase` is per-character `Char.toLower`
  and `trim` strips ASCII whitespace.
* The durable local store (the `priceAlerts` item of `localStorage`) is
  modelled as the decoded rule list it holds; `JSON.stringify`/`JSON.parse`
  round-tripping is the identity on that list.
* DOM side effects (toasts, badge updates) are modelled as returned values.
-/

/-- ASCII whitespace, as stripped by `String.prototype.trim`. -/
def isJsWS (c : Char) : Bool :=
  c == ' ' || c == '\t' || c == '\n' || c == '\r' || c == '\x0b' || c == '\x0c'

/-- Model of `String.prototype.trim`. -/
def jsTrim (s : String) : String :=
  ⟨(s.data.dropWhile isJsWS).reverse.dropWhile isJsWS |>.reverse⟩

/-- Model of `String.prototype.toLowerCase` (per-character lowering). -/
def strLower (s : String) : String :=
  ⟨s.data.map Char.toLower⟩

/-- `startsWithL sub l` holds when `sub` is an initial segment of `l`. -/
def startsWithL : List Char → List Char → Bool
  | [], _ => true
  | _ :: _, [] => false
  | a :: as, b :: bs => a == b && startsWithL as bs

/-- `hasSubL sub l` holds when `sub` occurs contiguously inside `l`. -/
def hasSubL (sub : List Char) : List Char → Bool
  | [] => startsWithL sub []
  | c :: rest => startsWithL sub (c :: rest) || hasSubL sub rest

/-- Model of `String.prototype.includes`. -/
def strIncludes (s sub : String) : Bool :=
  hasSubL sub.data s.data

/-- Numeric value of a list of decimal digit characters. -/
def digitsToNat (l : List Char) : Nat :=
  l.foldl (fun acc c => acc * 10 + (c.toNat - 48)) 0

/-- Model of the global `parseFloat` on the decimal literals the dashboards
feed it: leading ASCII whitespace, an optional sign, integer digits and an
optional fraction.  `none` models a `NaN` result. -/
def jsParseFloat (s : String) : Option ℚ :=
  let l := s.data.dropWhile isJsWS
  let signNeg : Bool := l.head? == some '-'
  let l1 := if l.head? == some '-' || l.head? == some '+' then l.tail else l
  let intDigits := l1.takeWhile Char.isDigit
  let l2 := l1.drop intDigits.length
  let fracDigits := if l2.head? == some '.' then l2.tail.takeWhile Char.isDigit else []
  if intDigits.isEmpty && fracDigits.isEmpty then none
  else
    let mag : ℚ := (digitsToNat intDigits : ℚ) +
      (digitsToNat fracDigits : ℚ) / ((10 : ℚ) ^ fracDigits.length)
    some (if signNeg then -mag else mag)

/-- Floor of a rational as an integer (rounds toward −∞). -/
def ratFloor (q : ℚ) : Int :=
  Int.fdiv q.num q.den

/-- Two-character zero-padded decimal rendering of a value below 100. -/
def pad2 (n : Nat) : String :=
  if n < 10 then "0" ++ toString n else toString n

/-- `Number.prototype.toFixed(2)` on a non-negative rational: round to the
nearest hundredth (ties upward) and print with exactly two decimals. -/
def fixAbs2 (q : ℚ) : String :=
  let n : Nat := (ratFloor (q * 100 + 1 / 2)).toNat
  toString (n / 100) ++ "." ++ pad2 (n % 100)

/-- `Number.prototype.toFixed(2)`: negative values print as `-` followed by
the rendering of the absolute value. -/
def toFixed2 (q : ℚ) : String :=
  if q < 0 then "-" ++ fixAbs2 (-q) else fixAbs2 q

/-- A JavaScript word character (`\w`). -/
def isWordChar (c : Char) : Bool :=
  c.isAlphanum || c == '_'

/-- Length of the run of decimal digits at the head of the list. -/
def digitRun (l : List Char) : Nat :=
  (l.takeWhile Char.isDigit).length

/-- Worker for the regex `replace(/\B(?=(\d{3})+(?!\d))/g, ',')` used by
`formatCurrency`: a comma is inserted before a digit that is preceded by a
word character and that starts a maximal digit run of positive length
divisible by three. -/
def commaAux (prevWord : Bool) : List Char → List Char
  | [] => []
  | c :: rest =>
    let ins := prevWord && c.isDigit && digitRun (c :: rest) % 3 == 0
    (if ins then [','] else []) ++ c :: commaAux (isWordChar c) rest

/-- The thousands-separator regex substitution of `formatCurrency`. -/
def commaGroup (s : String) : String :=
  ⟨commaAux false s.data⟩

/-- Two's-complement wrap into the signed 32-bit range, as `| 0` / `& x` do. -/
def toInt32 (n : Int) : Int :=
  (n + 2147483648) % 4294967296 - 2147483648

/-- The JavaScript values `formatCurrency` can receive. -/
inductive JSVal where
  | num (q : ℚ)
  | nan
  | str (s : String)
  | nullV
  | undef
  | boolV (b : Bool)
deriving DecidableEq

/-- `String(v)` for the non-numeric values, as coerced by `parseFloat`. -/
def jsStringOf : JSVal → String
  | .num _ => ""
  | .nan => "NaN"
  | .str s => s
  | .nullV => "null"
  | .undef => "undefined"
  | .boolV true => "true"
  | .boolV false => "false"

/-- `utils.js` lines 45–50, `formatCurrency`: a non-number input is replaced
by `parseFloat(amount) || 0`; the result is `₦` + `toFixed(2)` with the
thousands-separator substitution.  A `NaN` number renders as `₦NaN`. -/
def formatCurrency (v : JSVal) : String :=
  let amount : Option ℚ :=
    match v with
    | .num q => some q
    | .nan => none
    | other => some ((jsParseFloat (jsStringOf other)).getD 0)
  match amount with
  | some q => "₦" ++ commaGroup (toFixed2 q)
  | none => "₦" ++ commaGroup "NaN"

/-- A price record as consumed by the dashboards.  `none` models a missing
(`undefined`/`null`) or non-numeric field value. -/
structure PriceRecord where
  category_id : Option Int := none
  name : Option String := none
  brand : Option String := none
  price : Option ℚ := none
  retailer : Option String := none
  location : Option String := none
deriving DecidableEq, Repr

/-- A user-defined price alert rule (`user-dashboard.js` line 242). -/
structure AlertRule where
  id : Nat
  itemName : String
  threshold : ℚ
  triggered : Bool
deriving DecidableEq, Repr

/-- In-memory rule list (`priceAlerts`) together with the decoded content of
the durable `localStorage` item of the same name. -/
structure DashState where
  alerts : List AlertRule
  stored : List AlertRule
deriving DecidableEq, Repr

/-- `String(p.category_id)` as compared by the category filter. -/
def catIdString : Option Int → String
  | some n => toString n
  | none => "null"

/-- `user-dashboard.js` line 224: `!categoryId || String(p.category_id) === String(categoryId)`. -/
def matchCategoryB (categoryId : String) (p : PriceRecord) : Bool :=
  categoryId == "" || catIdString p.category_id == categoryId

/-- `user-dashboard.js` line 225: `typeof p.price === 'number' && p.price >= minPrice && p.price <= maxPrice`.
A `maxPrice` of `none` models `Number.POSITIVE_INFINITY`. -/
def matchPriceB (minPrice : ℚ) (maxPrice : Option ℚ) (p : PriceRecord) : Bool :=
  match p.price with
  | some q =>
    decide (minPrice ≤ q) && (match maxPrice with | some m => decide (q ≤ m) | none => true)
  | none => false

/-- `user-dashboard.js` lines 226–227: `!sub || (field && field.toLowerCase().includes(sub))`. -/
def matchFieldB (sub : String) (field : Option String) : Bool :=
  sub == "" || (match field with | some f => (f != "") && strIncludes (strLower f) sub | none => false)

/-- `user-dashboard.js` line 219: `parseFloat(maxField) || Number.POSITIVE_INFINITY`
(NaN and 0 are falsy, so both fall back to infinity, modelled as `none`). -/
def deriveMax (maxField : String) : Option ℚ :=
  match jsParseFloat maxField with
  | some q => if q = 0 then none else some q
  | none => none

/-- `user-dashboard.js` lines 216–231, `applyFilters`: read the five filter
fields, derive the numeric bounds and lowered substrings, and filter the
snapshot by the conjunction of the four matchers. -/
def applyFilters (prices : List PriceRecord)
    (catField minField maxField retField locField : String) : List PriceRecord :=
  let categoryId := catField
  let minPrice := (jsParseFloat minField).getD 0
  let maxPrice := deriveMax maxField
  let retailer := strLower retField
  let location := strLower locField
  prices.filter (fun p =>
    matchCategoryB categoryId p && matchPriceB minPrice maxPrice p &&
    matchFieldB retailer p.retailer && matchFieldB location p.location)

/-- The per-record predicate of the global search (`user-dashboard.js` lines
199–203): name, retailer or location contains the lowered query. -/
def searchMatchB (q : String) (p : PriceRecord) : Bool :=
  (match p.name with | some n => (n != "") && strIncludes (strLower n) q | none => false) ||
  (match p.retailer with | some r => (r != "") && strIncludes (strLower r) q | none => false) ||
  (match p.location with | some l => (l != "") && strIncludes (strLower l) q | none => false)

/-- `user-dashboard.js` lines 197–203: the debounced handler trims and lowers
the query; an empty query redisplays the full snapshot, otherwise the
snapshot is filtered by `searchMatchB`. -/
def searchPrices (prices : List PriceRecord) (rawQuery : String) : List PriceRecord :=
  let q := strLower (jsTrim rawQuery)
  if q == "" then prices else prices.filter (searchMatchB q)

/-- `user-dashboard.js` line 251: the condition of the `find` inside
`checkPriceAlerts` — case-insensitively equal name and price at or below the
threshold. -/
def alertHitB (a : AlertRule) (p : PriceRecord) : Bool :=
  (match p.name with | some n => strLower n == strLower a.itemName | none => false) &&
  (match p.price with | some q => decide (q ≤ a.threshold) | none => false)

/-- The toast message of `user-dashboard.js` line 254. -/
def toastMsg (a : AlertRule) (p : PriceRecord) : String :=
  "Price alert: " ++ a.itemName ++ " is now " ++
    formatCurrency (match p.price with | some q => .num q | none => .undef)

/-- The body of the `forEach` of `checkPriceAlerts` (lines 249–256) for one
rule: a triggered rule is skipped; otherwise the first qualifying record
flips the rule and emits one toast. -/
def checkAlertStep (prices : List PriceRecord) (a : AlertRule) : AlertRule × Option String :=
  if a.triggered then (a, none)
  else
    match prices.find? (alertHitB a) with
    | some hit => ({ a with triggered := true }, some (toastMsg a hit))
    | none => (a, none)

/-- `user-dashboard.js` lines 248–259, `checkPriceAlerts`, as a pure function:
the updated rule list and the emitted toasts, in rule order. -/
def checkPriceAlerts (prices : List PriceRecord) (alerts : List AlertRule) :
    List AlertRule × List String :=
  let pairs := alerts.map (checkAlertStep prices)
  (pairs.map Prod.fst, pairs.filterMap Prod.snd)

/-- `checkPriceAlerts` together with its unconditional persistence step
(line 257: `localStorage.setItem('priceAlerts', JSON.stringify(priceAlerts))`). -/
def checkPriceAlertsRun (prices : List PriceRecord) (st : DashState) :
    DashState × List String :=
  let out := checkPriceAlerts prices st.alerts
  ({ alerts := out.1, stored := out.1 }, out.2)

/-- `user-dashboard.js` lines 238–246, `savePriceAlert`: reject an empty
trimmed item name or a non-parsing threshold with a message and no state
change; otherwise append the new untriggered rule and persist. -/
def savePriceAlert (nameField thresholdField : String) (newId : Nat) (st : DashState) :
    DashState × Option String :=
  let itemName := jsTrim nameField
  match jsParseFloat thresholdField with
  | none => (st, some "Please fill all alert fields")
  | some th =>
    if itemName == "" then (st, some "Please fill all alert fields")
    else
      let alerts := st.alerts ++
        [{ id := newId, itemName := itemName, threshold := th, triggered := false }]
      ({ alerts := alerts, stored := alerts }, none)

/-- `admin-dashboard.js` lines 537–543, `window.deleteAlert`: drop every rule
with the given id and persist the remainder. -/
def deleteAlert (alertId : Nat) (st : DashState) : DashState :=
  let alerts := st.alerts.filter (fun a => a.id != alertId)
  { alerts := alerts, stored := alerts }

/-- The operations of an alert rule's lifetime. -/
inductive AlertOp where
  | create (nameField thresholdField : String) (newId : Nat)
  | evaluate (prices : List PriceRecord)
  | remove (alertId : Nat)
deriving DecidableEq

/-- One lifecycle operation applied to the dashboard state. -/
def applyAlertOp : AlertOp → DashState → DashState
  | .create nf tf nid, st => (savePriceAlert nf tf nid st).1
  | .evaluate prices, st => (checkPriceAlertsRun prices st).1
  | .remove k, st => deleteAlert k st

/-- A sequence of lifecycle operations. -/
def runAlertOps (ops : List AlertOp) (st : DashState) : DashState :=
  ops.foldl (fun s op => applyAlertOp op s) st

/-- Whether an operation is a user deletion. -/
def isRemove : AlertOp → Bool
  | .remove _ => true
  | _ => false

/-- Monotone evolution of a rule: identity fields are unchanged and the
`triggered` flag never falls back from `true` to `false`. -/
def evolved (r r' : AlertRule) : Prop :=
  r'.id = r.id ∧ r'.itemName = r.itemName ∧ r'.threshold = r.threshold ∧
    (r.triggered = true → r'.triggered = true)

/-- The four figures written by `user-dashboard.js` lines 454–460,
`updateStats`. -/
structure GlobalStats where
  total : Nat
  avg : ℚ
  locations : Nat
  retailers : Nat
deriving DecidableEq, Repr

/-- `user-dashboard.js` lines 454–460, `updateStats`: count, guarded average
(`length ? sum/length : 0`) and distinct non-empty location/retailer counts. -/
def updateStats (prices : List PriceRecord) : GlobalStats :=
  { total := prices.length
    avg :=
      if prices.length = 0 then 0
      else (prices.foldl (fun s p => s + p.price.getD 0) 0) / (prices.length : ℚ)
    locations :=
      (((prices.map (fun p => p.location)).filterMap id).filter (fun l => l ≠ "")).dedup.length
    retailers :=
      (((prices.map (fun p => p.retailer)).filterMap id).filter (fun r => r ≠ "")).dedup.length }

/-- The per-category figures of `admin-dashboard.js` lines 468–484. -/
structure CatStats where
  count : Nat
  avg : ℚ
  minPrice : ℚ
  maxPrice : ℚ
deriving DecidableEq, Repr

/-- `admin-dashboard.js` lines 468–484, `populateCategoryInsights`: for one
category, count, guarded average, and `Math.min`/`Math.max` over
`price || 0`, each defined as 0 on an empty category. -/
def adminCategoryStats (catId : Int) (prices : List PriceRecord) : CatStats :=
  let catPrices := prices.filter (fun p => p.category_id == some catId)
  { count := catPrices.length
    avg :=
      if catPrices.length = 0 then 0
      else (catPrices.foldl (fun s p => s + p.price.getD 0) 0) / (catPrices.length : ℚ)
    minPrice :=
      match catPrices.map (fun p => p.price.getD 0) with
      | [] => 0
      | h :: t => t.foldl min h
    maxPrice :=
      match catPrices.map (fun p => p.price.getD 0) with
      | [] => 0
      | h :: t => t.foldl max h }

/-- `user-dashboard.js` lines 140–150, `populateCategoryInsights`: per
category, the count and the displayed average (0 for an empty category,
otherwise the parsed two-decimal rendering of the mean). -/
def userCategoryInsight (catId : Int) (prices : List PriceRecord) : Nat × ℚ :=
  let catPrices := prices.filter (fun p => p.category_id == some catId)
  (catPrices.length,
    if catPrices.length = 0 then 0
    else (jsParseFloat (toFixed2
      ((catPrices.foldl (fun s p => s + p.price.getD 0) 0) / (catPrices.length : ℚ)))).getD 0)

/-- Discrete-event model of the debounced search handler (`user-dashboard.js`
lines 193–213; the same `clearTimeout`/`setTimeout` shape as
`utils.js` lines 150–160, `debounce`).  The input is the time-ordered list of
input events `(time, query)`; each event cancels a pending timer and arms a
new one for `time + w`; an armed timer fires unless the next event arrives
strictly before its deadline.  The result is the list of queries actually
evaluated, in firing order. -/
def debounceRuns (w : Nat) : List (Nat × String) → List String
  | [] => []
  | [(_, q)] => [q]
  | (t, q) :: (t', q') :: rest =>
    if t' < t + w then debounceRuns w ((t', q') :: rest)
    else q :: debounceRuns w ((t', q') :: rest)

/-- Every event of the list arrives strictly before the quiescence window of
its predecessor expires. -/
def gapsWithin (w : Nat) : List (Nat × String) → Bool
  | (t, _) :: (t', q') :: rest => decide (t' < t + w) && gapsWithin w ((t', q') :: rest)
  | _ => true

namespace Utils

/-- `utils.js` lines 504–512, `hashPassword`: the rolling hash
`h = ((h << 5) - h) + code; h = h & h` over the UTF-16 code units, rendered
in decimal.  The input is the list of code units. -/
def hashPassword (codes : List Nat) : String :=
  toString (codes.foldl (fun h c => toInt32 (toInt32 (h * 32) - h + (c : Int))) 0)

end Utils

namespace SmallUtils

/-- The small-utilities module (src/unnamed/part_001) lines 2–11,
`hashPassword`: the same rolling hash, rendered in decimal. -/
def hashPassword (codes : List Nat) : String :=
  toString (codes.foldl (fun h c => toInt32 (toInt32 (h * 32) - h + (c : Int))) 0)

end SmallUtils

/-- The rolling recurrence named by the claim: starting from 0, each step is
`h ← ((h << 5) − h) + code` wrapped to a 32-bit signed integer. -/
def rollingHash32 (codes : List Nat) : Int :=
  codes.foldl (fun h c => toInt32 (toInt32 (h * 32) - h + (c : Int))) 0

/-- Spec-side price condition: the record's price lies in
`[minPrice, maxPrice]`, an unset upper bound meaning +∞. -/
def specPriceInRange (minPrice : ℚ) (maxPrice : Option ℚ) (p : PriceRecord) : Prop :=
  ∃ q, p.price = some q ∧ minPrice ≤ q ∧ ∀ m, maxPrice = some m → q ≤ m

/-- Spec-side substring condition: the field contains the substring
case-insensitively, or the substring is empty. -/
def specFieldContains (sub : String) (field : Option String) : Prop :=
  sub = "" ∨ ∃ f, field = some f ∧ strIncludes (strLower f) sub = true

/-- Spec-side category condition: the record's category matches the
criteria's category, or the criteria's category is unset. -/
def specCategoryOk (categoryId : String) (p : PriceRecord) : Prop :=
  categoryId = "" ∨ catIdString p.category_id = categoryId

/-- Spec-side filter predicate: the conjunction of the four conditions of the
Filter Engine contract. -/
def specFilterMatch (categoryId : String) (minPrice : ℚ) (maxPrice : Option ℚ)
    (retSub locSub : String) (p : PriceRecord) : Prop :=
  specCategoryOk categoryId p ∧ specPriceInRange minPrice maxPrice p ∧
    specFieldContains retSub p.retailer ∧ specFieldContains locSub p.location

/-- Modelled from the spec's words for comparison (Search Index contract):
a record matches when its name, retailer, location, or brand contains the
query case-insensitively. -/
def specSearchMatchB (q : String) (p : PriceRecord) : Bool :=
  (match p.name with | some n => strIncludes (strLower n) q | none => false) ||
  (match p.retailer with | some r => strIncludes (strLower r) q | none => false) ||
  (match p.location with | some l => strIncludes (strLower l) q | none => false) ||
  (match p.brand with | some b => strIncludes (strLower b) q | none => false)

/-- The amended (code-accurate) search condition: name, retailer, or location
contains the query case-insensitively — the brand field is not consulted. -/
def amendedSearchMatch (q : String) (p : PriceRecord) : Prop :=
  (∃ n, p.name = some n ∧ strIncludes (strLower n) q = true) ∨
  (∃ r, p.retailer = some r ∧ strIncludes (strLower r) q = true) ∨
  (∃ l, p.location = some l ∧ strIncludes (strLower l) q = true)

/-- Spec-side qualifying-record condition for an alert rule: some record's
name equals the rule's item name case-insensitively and its price is at or
below the threshold. -/
def specQualifies (r : AlertRule) (prices : List PriceRecord) : Prop :=
  ∃ p ∈ prices, (∃ n, p.name = some n ∧ strLower n = strLower r.itemName) ∧
    ∃ q, p.price = some q ∧ q ≤ r.threshold

lemma strIncludes_empty_left (sub : String) (h : sub ≠ "") : strIncludes "" sub = false := by
  cases sub with
  | mk l =>
    cases l with
    | nil => exact absurd rfl h
    | cons c cs => rfl

lemma checkPriceAlerts_fst_length (prices : List PriceRecord) (alerts : List AlertRule) :
    ((checkPriceAlerts prices alerts).1).length = alerts.length := by
  simp [checkPriceAlerts]

lemma checkPriceAlerts_fst_get (prices : List PriceRecord) (alerts : List AlertRule)
    (i : Nat) (h : i < alerts.length) (h' : i < ((checkPriceAlerts prices alerts).1).length) :
    (checkPriceAlerts prices alerts).1.get ⟨i, h'⟩ =
      (checkAlertStep prices (alerts.get ⟨i, h⟩)).1 := by
  simp [checkPriceAlerts]

lemma checkAlertStep_of_triggered (prices : List PriceRecord) (a : AlertRule)
    (h : a.triggered = true) : checkAlertStep prices a = (a, none) := by
  simp [checkAlertStep, h]

lemma specQualifies_iff_hit (r : AlertRule) (prices : List PriceRecord) :
    specQualifies r prices ↔ ∃ p ∈ prices, alertHitB r p = true := by
  constructor
  · rintro ⟨p, hp, ⟨n, hn, hlow⟩, q, hq, hle⟩
    refine ⟨p, hp, ?_⟩
    simp [alertHitB, hn, hq, hlow, hle]
  · rintro ⟨p, hp, hhit⟩
    simp only [alertHitB, Bool.and_eq_true] at hhit
    obtain ⟨h1, h2⟩ := hhit
    cases hn : p.name with
    | none => rw [hn] at h1; simp at h1
    | some n =>
      cases hq : p.price with
      | none => rw [hq] at h2; simp at h2
      | some q =>
        rw [hn] at h1; rw [hq] at h2
        simp only [beq_iff_eq] at h1
        simp only [decide_eq_true_eq] at h2
        exact ⟨p, hp, ⟨n, hn, h1⟩, q, hq, h2⟩

lemma checkAlertStep_of_hit (prices : List PriceRecord) (a : AlertRule)
    (hf : a.triggered = false) (hq : specQualifies a prices) :
    ∃ hit, prices.find? (alertHitB a) = some hit ∧
      checkAlertStep prices a = ({ a with triggered := true }, some (toastMsg a hit)) := by
  have hex : ∃ p ∈ prices, alertHitB a p = true := (specQualifies_iff_hit a prices).mp hq
  have hsome : (prices.find? (alertHitB a)).isSome := by
    rw [List.find?_isSome]
    obtain ⟨p, hp, hhit⟩ := hex
    exact ⟨p, hp, hhit⟩
  obtain ⟨hit, hfind⟩ := Option.isSome_iff_exists.mp hsome
  refine ⟨hit, hfind, ?_⟩
  simp [checkAlertStep, hf, hfind]

/-- **C3.**  After every alert evaluation over a snapshot, the full updated
rule set is written to the durable store unconditionally, so the persisted
rule set equals the in-memory rule set at the end of the call — including
evaluations in which no rule newly triggers. -/
theorem alert_persist_after_eval (prices : List PriceRecord) (st : DashState) :
    ((checkPriceAlertsRun prices st).1).stored = ((checkPriceAlertsRun prices st).1).alerts ∧
    ((checkPriceAlertsRun prices st).1).alerts = (checkPriceAlerts prices st.alerts).1 :=
  ⟨rfl, rfl⟩

/-- **C7.**  An alert-creation attempt whose trimmed item name is empty or
whose threshold does not parse as a number is rejected with a user-visible
message and mutates neither the in-memory rule list nor the durable store. -/
theorem save_alert_rejects_malformed (nameField thresholdField : String) (newId : Nat)
    (st : DashState) (hbad : jsTrim nameField = "" ∨ jsParseFloat thresholdField = none) :
    (savePriceAlert nameField thresholdField newId st).1 = st ∧
    ((savePriceAlert nameField thresholdField newId st).2).isSome = true := by
  unfold savePriceAlert
  cases hp : jsParseFloat thresholdField with
  | none => exact ⟨rfl, rfl⟩
  | some th =>
    have hname : jsTrim nameField = "" := by
      rcases hbad with h | h
      · exact h
      · rw [hp] at h; exact absurd h (by simp)
    simp [hname]

/-- **C7 witness.**  A whitespace-only item name with a valid threshold is
rejected and the state `⟨[], []⟩` is left unchanged. -/
theorem save_alert_rejects_malformed_witness :
    (savePriceAlert "   " "250" 5 ⟨[], []⟩).1 = ⟨[], []⟩ ∧
    ((savePriceAlert "   " "250" 5 ⟨[], []⟩).2).isSome = true :=
  save_alert_rejects_malformed "   " "250" 5 ⟨[], []⟩ (Or.inl (by decide))

/-- **C9.**  The two `hashPassword` implementations (main utils module and
small-utilities module) agree on every input; both render in decimal the
32-bit signed integer produced by the rolling recurrence
`h ← ((h << 5) − h) + code` started from 0; the empty string hashes to
`"0"`; and the accumulated value always lies in the signed 32-bit range. -/
theorem hashPassword_implementations_agree :
    (∀ codes : List Nat, Utils.hashPassword codes = SmallUtils.hashPassword codes) ∧
    (∀ codes : List Nat, Utils.hashPassword codes = toString (rollingHash32 codes)) ∧
    Utils.hashPassword [] = "0" ∧
    (∀ codes : List Nat,
      -2147483648 ≤ rollingHash32 codes ∧ rollingHash32 codes < 2147483648) := by
  refine ⟨fun _ => rfl, fun _ => rfl, rfl, fun codes => ?_⟩
  have hstep : ∀ n : Int, -2147483648 ≤ toInt32 n ∧ toInt32 n < 2147483648 := by
    intro n
    unfold toInt32
    constructor
    · have := Int.emod_nonneg (n + 2147483648) (b := 4294967296) (by norm_num)
      omega
    · have := Int.emod_lt_of_pos (n + 2147483648) (b := (4294967296 : Int)) (by norm_num)
      omega
  have hfold : ∀ (l : List Nat) (h : Int),
      -2147483648 ≤ h ∧ h < 2147483648 →
      -2147483648 ≤ l.foldl (fun h c => toInt32 (toInt32 (h * 32) - h + (c : Int))) h ∧
        l.foldl (fun h c => toInt32 (toInt32 (h * 32) - h + (c : Int))) h < 2147483648 := by
    intro l
    induction l with
    | nil => intro h hh; simpa using hh
    | cons c cs ih =>
      intro h _
      exact ih _ (hstep _)
  exact hfold codes 0 (by norm_num)

/-- **C8.**  When every input event of a non-empty sequence arrives strictly
within the quiescence window of its predecessor, the debounced search
handler fires exactly once, evaluating only the most recent query. -/
theorem debounce_single_evaluation (w : Nat) (e : Nat × String) (es : List (Nat × String))
    (hgaps : gapsWithin w (e :: es) = true) :
    debounceRuns w (e :: es) = [((e :: es).getLast (List.cons_ne_nil e es)).2] := by
  induction es generalizing e with
  | nil =>
    obtain ⟨t, q⟩ := e
    simp [debounceRuns, List.getLast]
  | cons e' rest ih =>
    obtain ⟨t, q⟩ := e
    obtain ⟨t', q'⟩ := e'
    simp only [gapsWithin, Bool.and_eq_true, decide_eq_true_eq] at hgaps
    obtain ⟨hlt, hrest⟩ := hgaps
    have := ih (t', q') hrest
    simp only [debounceRuns, if_pos hlt, this]
    rfl

/-- **C8 witness.**  Queries "a", "ap", "app" issued at 0, 50 and 100 ms with
a 200 ms window produce exactly one evaluation, for "app". -/
theorem debounce_single_evaluation_witness :
    debounceRuns 200 [(0, "a"), (50, "ap"), (100, "app")] = ["app"] :=
  debounce_single_evaluation 200 (0, "a") [(50, "ap"), (100, "app")] (by decide)

/-- **C5.**  Over an empty record set — globally, and per category for a
category with no records — every computed statistic is zero: count,
average, minimum and maximum all come out 0, with no division performed. -/
theorem empty_stats_zero :
    updateStats [] = { total := 0, avg := 0, locations := 0, retailers := 0 } ∧
    (∀ (catId : Int) (prices : List PriceRecord),
      (∀ p ∈ prices, p.category_id ≠ some catId) →
      adminCategoryStats catId prices = { count := 0, avg := 0, minPrice := 0, maxPrice := 0 }) ∧
    (∀ (catId : Int) (prices : List PriceRecord),
      (∀ p ∈ prices, p.category_id ≠ some catId) →
      userCategoryInsight catId prices = (0, 0)) := by
  refine ⟨rfl, ?_, ?_⟩ <;>
    · intro catId prices hnone
      have hfil : prices.filter (fun p => p.category_id == some catId) = [] := by
        rw [List.filter_eq_nil_iff]
        intro p hp
        simpa using hnone p hp
      simp [adminCategoryStats, userCategoryInsight, hfil]

/-- **C5 witness.**  A snapshot whose only record is in category 2 yields
all-zero statistics for category 1. -/
theorem empty_stats_zero_witness :
    adminCategoryStats 1 [{ category_id := some 2, price := some 5 }] =
      { count := 0, avg := 0, minPrice := 0, maxPrice := 0 } :=
  empty_stats_zero.2.1 1 [{ category_id := some 2, price := some 5 }] (by decide)

/-- **C1.**  For a rule with `triggered = false` and a qualifying record in
the snapshot (case-insensitively equal name, price at or below the
threshold), one evaluation call flips the rule to `triggered = true` and
emits one notification for it, while a second evaluation over the same
snapshot leaves the rule unchanged and emits no further notification
for it. -/
theorem alert_eval_once (prices : List PriceRecord) (rules : List AlertRule)
    (i : Nat) (h : i < rules.length)
    (hf : (rules.get ⟨i, h⟩).triggered = false)
    (hq : specQualifies (rules.get ⟨i, h⟩) prices) :
    ∃ h1 : i < ((checkPriceAlerts prices rules).1).length,
      (checkPriceAlerts prices rules).1.get ⟨i, h1⟩ =
        { rules.get ⟨i, h⟩ with triggered := true } ∧
      ((checkAlertStep prices (rules.get ⟨i, h⟩)).2).isSome = true ∧
      ∃ h2 : i < ((checkPriceAlerts prices ((checkPriceAlerts prices rules).1)).1).length,
        (checkPriceAlerts prices ((checkPriceAlerts prices rules).1)).1.get ⟨i, h2⟩ =
          (checkPriceAlerts prices rules).1.get ⟨i, h1⟩ ∧
        (checkAlertStep prices ((checkPriceAlerts prices rules).1.get ⟨i, h1⟩)).2 = none := by
  have h1 : i < ((checkPriceAlerts prices rules).1).length := by
    rw [checkPriceAlerts_fst_length]; exact h
  obtain ⟨hit, hfind, hstep⟩ := checkAlertStep_of_hit prices (rules.get ⟨i, h⟩) hf hq
  have hget1 : (checkPriceAlerts prices rules).1.get ⟨i, h1⟩ =
      { rules.get ⟨i, h⟩ with triggered := true } := by
    rw [checkPriceAlerts_fst_get prices rules i h h1, hstep]
  have h2 : i < ((checkPriceAlerts prices ((checkPriceAlerts prices rules).1)).1).length := by
    rw [checkPriceAlerts_fst_length, checkPriceAlerts_fst_length]; exact h
  have htrig : ((checkPriceAlerts prices rules).1.get ⟨i, h1⟩).triggered = true := by
    rw [hget1]
  refine ⟨h1, hget1, ?_, h2, ?_, ?_⟩
  · rw [hstep]; rfl
  · rw [checkPriceAlerts_fst_get prices ((checkPriceAlerts prices rules).1) i h1 h2,
      checkAlertStep_of_triggered prices _ htrig]
  · rw [checkAlertStep_of_triggered prices _ htrig]

/-- **C1 witness.**  The scenario of the spec: snapshot
`[{Rice, 500}, {Rice, 1500}]` and rule `{rice, 1000, triggered = false}` —
one evaluation flips the rule, emits one notification, and a second
evaluation changes nothing and emits nothing for it. -/
theorem alert_eval_once_witness :
    ∃ h1 : 0 < ((checkPriceAlerts
        [{ name := some "Rice", price := some 500 }, { name := some "Rice", price := some 1500 }]
        [{ id := 7, itemName := "rice", threshold := 1000, triggered := false }]).1).length,
      (checkPriceAlerts
        [{ name := some "Rice", price := some 500 }, { name := some "Rice", price := some 1500 }]
        [{ id := 7, itemName := "rice", threshold := 1000, triggered := false }]).1.get ⟨0, h1⟩ =
        { id := 7, itemName := "rice", threshold := 1000, triggered := true } ∧
      ((checkAlertStep
        [{ name := some "Rice", price := some 500 }, { name := some "Rice", price := some 1500 }]
        { id := 7, itemName := "rice", threshold := 1000, triggered := false }).2).isSome = true ∧
      ∃ h2 : 0 < ((checkPriceAlerts
          [{ name := some "Rice", price := some 500 }, { name := some "Rice", price := some 1500 }]
          ((checkPriceAlerts
            [{ name := some "Rice", price := some 500 }, { name := some "Rice", price := some 1500 }]
            [{ id := 7, itemName := "rice", threshold := 1000, triggered := false }]).1)).1).length,
        (checkPriceAlerts
          [{ name := some "Rice", price := some 500 }, { name := some "Rice", price := some 1500 }]
          ((checkPriceAlerts
            [{ name := some "Rice", price := some 500 }, { name := some "Rice", price := some 1500 }]
            [{ id := 7, itemName := "rice", threshold := 1000, triggered := false }]).1)).1.get ⟨0, h2⟩ =
          (checkPriceAlerts
            [{ name := some "Rice", price := some 500 }, { name := some "Rice", price := some 1500 }]
            [{ id := 7, itemName := "rice", threshold := 1000, triggered := false }]).1.get ⟨0, h1⟩ ∧
        (checkAlertStep
          [{ name := some "Rice", price := some 500 }, { name := some "Rice", price := some 1500 }]
          ((checkPriceAlerts
            [{ name := some "Rice", price := some 500 }, { name := some "Rice", price := some 1500 }]
            [{ id := 7, itemName := "rice", threshold := 1000, triggered := false }]).1.get ⟨0, h1⟩)).2 =
          none :=
  alert_eval_once
    [{ name := some "Rice", price := some 500 }, { name := some "Rice", price := some 1500 }]
    [{ id := 7, itemName := "rice", threshold := 1000, triggered := false }]
    0 (by decide) (by decide)
    ⟨{ name := some "Rice", price := some 500 }, by decide,
      ⟨"Rice", rfl, by decide⟩, 500, rfl, by norm_num⟩

lemma matchCategoryB_iff (categoryId : String) (p : PriceRecord) :
    matchCategoryB categoryId p = true ↔ specCategoryOk categoryId p := by
  simp [matchCategoryB, specCategoryOk, Bool.or_eq_true, beq_iff_eq]

lemma matchPriceB_iff (minPrice : ℚ) (maxPrice : Option ℚ) (p : PriceRecord) :
    matchPriceB minPrice maxPrice p = true ↔ specPriceInRange minPrice maxPrice p := by
  unfold matchPriceB specPriceInRange
  cases hp : p.price with
  | none => simp
  | some q =>
    cases maxPrice with
    | none => simp
    | some m => simp [Bool.and_eq_true]

lemma matchFieldB_iff (sub : String) (field : Option String) :
    matchFieldB sub field = true ↔ specFieldContains sub field := by
  unfold matchFieldB specFieldContains
  cases field with
  | none => simp
  | some f =>
    by_cases hsub : sub = ""
    · simp [hsub]
    · have hne : (sub == "") = false := by simp [hsub]
      rw [hne]
      by_cases hf : f = ""
      · subst hf
        have hlow : strLower "" = "" := rfl
        simp [hsub, hlow, strIncludes_empty_left sub hsub]
      · simp [hsub, hf]

/-- **C2.**  A record is in the filter result exactly when it is in the
snapshot and satisfies all four conditions: category matches or the category
criterion is unset; its price is a number lying in `[minPrice, maxPrice]`
(the bounds defaulting to 0 and +∞ when unset); and its retailer and
location fields contain the respective lowered substrings case-insensitively
or those substrings are empty. -/
theorem filter_membership (prices : List PriceRecord)
    (catField minField maxField retField locField : String) (p : PriceRecord) :
    p ∈ applyFilters prices catField minField maxField retField locField ↔
      p ∈ prices ∧ specFilterMatch catField ((jsParseFloat minField).getD 0)
        (deriveMax maxField) (strLower retField) (strLower locField) p := by
  unfold applyFilters specFilterMatch
  rw [List.mem_filter]
  simp only [Bool.and_eq_true, matchCategoryB_iff, matchPriceB_iff, matchFieldB_iff]
  tauto

/-- **C2 witness.**  A 500-naira Rice record passes the all-unset filter. -/
theorem filter_membership_witness :
    ({ name := some "Rice", price := some 500 } : PriceRecord) ∈
      applyFilters [{ name := some "Rice", price := some 500 }] "" "" "" "" "" :=
  (filter_membership [{ name := some "Rice", price := some 500 }] "" "" "" "" ""
      { name := some "Rice", price := some 500 }).mpr
    ⟨by simp, Or.inl rfl, ⟨500, rfl, by decide, fun m hm => nomatch hm⟩,
      Or.inl rfl, Or.inl rfl⟩

lemma searchMatchB_iff (q : String) (p : PriceRecord) (hq : q ≠ "") :
    searchMatchB q p = true ↔ amendedSearchMatch q p := by
  unfold searchMatchB amendedSearchMatch
  have hfield : ∀ field : Option String,
      (match field with
        | some f => (f != "") && strIncludes (strLower f) q
        | none => false) = true ↔
      (∃ f, field = some f ∧ strIncludes (strLower f) q = true) := by
    intro field
    cases field with
    | none => simp
    | some f =>
      by_cases hf : f = ""
      · subst hf
        have hlow : strLower "" = "" := rfl
        simp [hlow, strIncludes_empty_left q hq]
      · simp [hf]
  simp only [Bool.or_eq_true, hfield]
  exact or_assoc

/-- **C4 counterexample.**  A record whose brand (but no other searched
field) contains the query is excluded by the code's search, although the
spec-side predicate that consults name, retailer, location, or brand
matches it. -/
theorem search_brand_counterexample :
    searchPrices [{ name := some "Garri", brand := some "Apple" }] "app" = [] ∧
    specSearchMatchB (strLower (jsTrim "app"))
      { name := some "Garri", brand := some "Apple" } = true := by
  constructor <;> rfl

/-- **C4 (amended).**  The search matches exactly the records whose name,
retailer, or location contains the trimmed query case-insensitively (the
brand field is not consulted); a query that is empty after trimming returns
the full snapshot. -/
theorem search_membership (prices : List PriceRecord) (rawQuery : String) (p : PriceRecord) :
    (strLower (jsTrim rawQuery) = "" → searchPrices prices rawQuery = prices) ∧
    (strLower (jsTrim rawQuery) ≠ "" →
      (p ∈ searchPrices prices rawQuery ↔
        p ∈ prices ∧ amendedSearchMatch (strLower (jsTrim rawQuery)) p)) := by
  constructor
  · intro hq
    unfold searchPrices
    simp [hq]
  · intro hq
    have hne : (strLower (jsTrim rawQuery) == "") = false := by simp [hq]
    simp only [searchPrices, hne, Bool.false_eq_true, if_false, List.mem_filter,
      searchMatchB_iff (strLower (jsTrim rawQuery)) p hq]

/-- **C4 witness.**  The query "Rice " (trimmed and lowered to "rice")
matches the record named "Basmati Rice" in a one-record snapshot. -/
theorem search_membership_witness :
    ({ name := some "Basmati Rice", price := some 900 } : PriceRecord) ∈
      searchPrices [{ name := some "Basmati Rice", price := some 900 }] "Rice " :=
  ((search_membership [{ name := some "Basmati Rice", price := some 900 }] "Rice "
      { name := some "Basmati Rice", price := some 900 }).2 (by decide)).mpr
    ⟨by simp, Or.inl ⟨"Basmati Rice", rfl, by decide⟩⟩

lemma evolved_refl (r : AlertRule) : evolved r r :=
  ⟨rfl, rfl, rfl, fun h => h⟩

lemma evolved_trans {a b c : AlertRule} (h1 : evolved a b) (h2 : evolved b c) : evolved a c :=
  ⟨h2.1.trans h1.1, h2.2.1.trans h1.2.1, h2.2.2.1.trans h1.2.2.1,
    fun h => h2.2.2.2 (h1.2.2.2 h)⟩

lemma checkAlertStep_fst_evolved (prices : List PriceRecord) (a : AlertRule) :
    evolved a (checkAlertStep prices a).1 := by
  unfold checkAlertStep
  cases ht : a.triggered with
  | true => simp [ht]; exact evolved_refl a
  | false =>
    cases hf : prices.find? (alertHitB a) with
    | none => simp [ht, hf]; exact evolved_refl a
    | some hit => simp [ht, hf]; exact ⟨rfl, rfl, rfl, fun h => rfl⟩

lemma savePriceAlert_fst (nf tf : String) (nid : Nat) (st : DashState) :
    (savePriceAlert nf tf nid st).1 = st ∨
    ∃ r : AlertRule, r.triggered = false ∧ r.id = nid ∧
      (savePriceAlert nf tf nid st).1.alerts = st.alerts ++ [r] := by
  cases hp : jsParseFloat tf with
  | none =>
    left
    simp [savePriceAlert, hp]
  | some th =>
    by_cases hn : jsTrim nf = ""
    · left
      simp [savePriceAlert, hp, hn]
    · right
      refine ⟨{ id := nid, itemName := jsTrim nf, threshold := th, triggered := false },
        rfl, rfl, ?_⟩
      simp [savePriceAlert, hp, hn]

lemma applyAlertOp_no_remove_evolved (op : AlertOp) (hop : isRemove op = false)
    (st : DashState) (i : Nat) (h : i < st.alerts.length) :
    ∃ h' : i < ((applyAlertOp op st).alerts).length,
      evolved (st.alerts.get ⟨i, h⟩) ((applyAlertOp op st).alerts.get ⟨i, h'⟩) := by
  cases op with
  | remove k => simp [isRemove] at hop
  | evaluate prices =>
    have hb : i < ((checkPriceAlerts prices st.alerts).1).length := by
      rw [checkPriceAlerts_fst_length]
      exact h
    refine ⟨hb, ?_⟩
    show evolved (st.alerts.get ⟨i, h⟩) ((checkPriceAlerts prices st.alerts).1.get ⟨i, hb⟩)
    rw [checkPriceAlerts_fst_get prices st.alerts i h hb]
    exact checkAlertStep_fst_evolved prices (st.alerts.get ⟨i, h⟩)
  | create nf tf nid =>
    have hfst : applyAlertOp (.create nf tf nid) st = (savePriceAlert nf tf nid st).1 := rfl
    rcases savePriceAlert_fst nf tf nid st with heq | ⟨r, _, _, heq⟩
    · rw [hfst, heq]
      exact ⟨h, evolved_refl _⟩
    · rw [hfst]
      have hlt : i < ((savePriceAlert nf tf nid st).1.alerts).length := by
        rw [heq]
        simp only [List.length_append, List.length_singleton]
        omega
      refine ⟨hlt, ?_⟩
      have h2 : i < (st.alerts ++ [r]).length := by
        simp only [List.length_append, List.length_singleton]
        omega
      have hget : (st.alerts ++ [r]).get ⟨i, h2⟩ = st.alerts.get ⟨i, h⟩ := by
        simp only [List.get_eq_getElem]
        exact List.getElem_append_left h
      have hcast : (savePriceAlert nf tf nid st).1.alerts.get ⟨i, hlt⟩ =
          (st.alerts ++ [r]).get ⟨i, h2⟩ := by
        simp only [List.get_eq_getElem]
        congr 1
      rw [hcast, hget]
      exact evolved_refl _

lemma runAlertOps_no_remove_evolved (ops : List AlertOp)
    (hops : ∀ op ∈ ops, isRemove op = false) (st : DashState)
    (i : Nat) (h : i < st.alerts.length) :
    ∃ h' : i < ((runAlertOps ops st).alerts).length,
      evolved (st.alerts.get ⟨i, h⟩) ((runAlertOps ops st).alerts.get ⟨i, h'⟩) := by
  induction ops generalizing st i with
  | nil => exact ⟨h, evolved_refl _⟩
  | cons op ops ih =>
    have hop : isRemove op = false := hops op (List.mem_cons_self op ops)
    have hops' : ∀ o ∈ ops, isRemove o = false := fun o ho => hops o (List.mem_cons_of_mem op ho)
    obtain ⟨h1, he1⟩ := applyAlertOp_no_remove_evolved op hop st i h
    obtain ⟨h2, he2⟩ := ih hops' (applyAlertOp op st) i h1
    have hrun : runAlertOps (op :: ops) st = runAlertOps ops (applyAlertOp op st) := rfl
    exact ⟨by rw [hrun]; exact h2, by rw [hrun] at *; exact evolved_trans he1 he2⟩

/-- **C6.**  `AlertRule.triggered` is monotonic within a rule's lifetime:
(i) a creation appends only rules with `triggered = false` and keeps existing
rules; (ii) an already-triggered rule is skipped by evaluation — unchanged
and emitting no notification; (iii) one evaluation keeps every rule at its
position with id, item name and threshold intact, never resets `triggered`
to `false`, and leaves triggered rules exactly as they were; (iv) rules are
removed only by the user's delete operation, which is a pure filter on the
rule id; (v) across any sequence of creations and evaluations, each original
rule survives at its position and evolves monotonically. -/
theorem alert_triggered_monotonic :
    (∀ (nf tf : String) (nid : Nat) (st : DashState),
      ∀ r ∈ (applyAlertOp (.create nf tf nid) st).alerts,
        r ∈ st.alerts ∨ (r.triggered = false ∧ r.id = nid)) ∧
    (∀ (prices : List PriceRecord) (a : AlertRule), a.triggered = true →
      checkAlertStep prices a = (a, none)) ∧
    (∀ (prices : List PriceRecord) (alerts : List AlertRule),
      ((checkPriceAlerts prices alerts).1).length = alerts.length ∧
      ∀ (i : Nat) (h : i < alerts.length) (h' : i < ((checkPriceAlerts prices alerts).1).length),
        evolved (alerts.get ⟨i, h⟩) ((checkPriceAlerts prices alerts).1.get ⟨i, h'⟩) ∧
        ((alerts.get ⟨i, h⟩).triggered = true →
          (checkPriceAlerts prices alerts).1.get ⟨i, h'⟩ = alerts.get ⟨i, h⟩)) ∧
    (∀ (k : Nat) (st : DashState),
      (applyAlertOp (.remove k) st).alerts = st.alerts.filter (fun a => a.id != k)) ∧
    (∀ (ops : List AlertOp), (∀ op ∈ ops, isRemove op = false) →
      ∀ (st : DashState) (i : Nat) (h : i < st.alerts.length),
        ∃ h' : i < ((runAlertOps ops st).alerts).length,
          evolved (st.alerts.get ⟨i, h⟩) ((runAlertOps ops st).alerts.get ⟨i, h'⟩)) := by
  refine ⟨?_, checkAlertStep_of_triggered, ?_, fun k st => rfl,
    fun ops hops st i h => runAlertOps_no_remove_evolved ops hops st i h⟩
  · intro nf tf nid st r hr
    have hfst : (applyAlertOp (.create nf tf nid) st).alerts =
        ((savePriceAlert nf tf nid st).1).alerts := rfl
    rw [hfst] at hr
    rcases savePriceAlert_fst nf tf nid st with heq | ⟨r0, hr0f, hr0id, heq⟩
    · rw [heq] at hr
      exact Or.inl hr
    · rw [heq] at hr
      rcases List.mem_append.mp hr with hin | hin
      · exact Or.inl hin
      · rcases List.mem_singleton.mp hin with rfl
        exact Or.inr ⟨hr0f, hr0id⟩
  · intro prices alerts
    refine ⟨checkPriceAlerts_fst_length prices alerts, ?_⟩
    intro i h h'
    rw [checkPriceAlerts_fst_get prices alerts i h h']
    refine ⟨checkAlertStep_fst_evolved prices _, ?_⟩
    intro ht
    rw [checkAlertStep_of_triggered prices _ ht]

/-- **C6 witness.**  Over the operation sequence "evaluate a Rice snapshot,
then create a Sugar rule", the pre-existing rice rule survives at position 0
and evolves monotonically. -/
theorem alert_triggered_monotonic_witness :
    ∃ h' : 0 < ((runAlertOps
        [.evaluate [{ name := some "Rice", price := some 500 }], .create "Sugar" "50" 9]
        ⟨[{ id := 7, itemName := "rice", threshold := 1000, triggered := false }],
         [{ id := 7, itemName := "rice", threshold := 1000, triggered := false }]⟩).alerts).length,
      evolved { id := 7, itemName := "rice", threshold := 1000, triggered := false }
        ((runAlertOps
          [.evaluate [{ name := some "Rice", price := some 500 }], .create "Sugar" "50" 9]
          ⟨[{ id := 7, itemName := "rice", threshold := 1000, triggered := false }],
           [{ id := 7, itemName := "rice", threshold := 1000, triggered := false }]⟩).alerts.get ⟨0, h'⟩) :=
  alert_triggered_monotonic.2.2.2.2
    [.evaluate [{ name := some "Rice", price := some 500 }], .create "Sugar" "50" 9]
    (by decide)
    ⟨[{ id := 7, itemName := "rice", threshold := 1000, triggered := false }],
     [{ id := 7, itemName := "rice", threshold := 1000, triggered := false }]⟩
    0 (by decide)

lemma string_append_data (a b : String) : (a ++ b).data = a.data ++ b.data := rfl

lemma digitRun_append_dot (xs ys : List Char) : digitRun (xs ++ '.' :: ys) = digitRun xs := by
  induction xs with
  | nil => simp [digitRun, List.takeWhile]
  | cons c cs ih =>
    by_cases hc : c.isDigit = true
    · simp [digitRun, List.takeWhile, hc] at *
      omega
    · simp [digitRun, List.takeWhile, hc]

lemma commaAux_dot_tail (b : Bool) (d1 d2 : Char) :
    commaAux b ['.', d1, d2] = ['.', d1, d2] := by
  have hdot : isWordChar '.' = false := by decide
  have hdotd : ('.' : Char).isDigit = false := by decide
  cases hd1 : d1.isDigit <;> cases hd2 : d2.isDigit <;>
    simp [commaAux, digitRun, List.takeWhile, hd1, hd2, hdot, hdotd]

lemma commaAux_append_dot (d1 d2 : Char) :
    ∀ (l : List Char) (b : Bool),
      commaAux b (l ++ '.' :: [d1, d2]) = commaAux b l ++ '.' :: [d1, d2] := by
  intro l
  induction l with
  | nil => intro b; simpa using commaAux_dot_tail b d1 d2
  | cons c cs ih =>
    intro b
    have hrun : digitRun (c :: (cs ++ '.' :: [d1, d2])) = digitRun (c :: cs) :=
      digitRun_append_dot (c :: cs) [d1, d2]
    simp only [List.cons_append, commaAux, List.append_eq]
    simp only [hrun, ih (isWordChar c)]
    cases b && c.isDigit && digitRun (c :: cs) % 3 == 0 <;> simp

lemma pad2_all_digits :
    ∀ n, n < 100 → ((pad2 n).data.length = 2 ∧ (pad2 n).data.all Char.isDigit = true) := by
  decide

lemma pad2_two_digits (n : Nat) (hn : n < 100) :
    ∃ a b : Char, (pad2 n).data = [a, b] ∧ a.isDigit = true ∧ b.isDigit = true := by
  obtain ⟨hlen, hall⟩ := pad2_all_digits n hn
  rcases hl : (pad2 n).data with _ | ⟨a, _ | ⟨b, _ | ⟨c, t⟩⟩⟩ <;> rw [hl] at hlen <;>
    simp at hlen
  rw [hl] at hall
  simp [List.all_eq_true] at hall
  exact ⟨a, b, rfl, hall.1, hall.2⟩

lemma fixAbs2_shape (q : ℚ) :
    ∃ (pre : List Char) (a b : Char), (fixAbs2 q).data = pre ++ '.' :: [a, b] ∧
      a.isDigit = true ∧ b.isDigit = true := by
  obtain ⟨a, b, hpd, ha, hb⟩ :=
    pad2_two_digits ((ratFloor (q * 100 + 1 / 2)).toNat % 100)
      (Nat.mod_lt _ (by norm_num))
  refine ⟨(toString ((ratFloor (q * 100 + 1 / 2)).toNat / 100)).data, a, b, ?_, ha, hb⟩
  have hshape : fixAbs2 q = toString ((ratFloor (q * 100 + 1 / 2)).toNat / 100) ++ "." ++
      pad2 ((ratFloor (q * 100 + 1 / 2)).toNat % 100) := rfl
  rw [hshape, string_append_data, string_append_data, hpd]
  simp

lemma toFixed2_shape (q : ℚ) :
    ∃ (pre : List Char) (a b : Char), (toFixed2 q).data = pre ++ '.' :: [a, b] ∧
      a.isDigit = true ∧ b.isDigit = true := by
  unfold toFixed2
  by_cases hq : q < 0
  · obtain ⟨pre, a, b, hd, ha, hb⟩ := fixAbs2_shape (-q)
    refine ⟨'-' :: pre, a, b, ?_, ha, hb⟩
    rw [if_pos hq, string_append_data, hd]
    rfl
  · obtain ⟨pre, a, b, hd, ha, hb⟩ := fixAbs2_shape q
    refine ⟨pre, a, b, ?_, ha, hb⟩
    rw [if_neg hq]
    exact hd

lemma toFixed2_zero : toFixed2 0 = "0.00" := by
  have h1 : ((0 : ℚ) * 100 + 1 / 2) = 1 / 2 := by norm_num
  have h2 : ratFloor (1 / 2 : ℚ) = 0 := by
    show Int.fdiv (1 / 2 : ℚ).num (1 / 2 : ℚ).den = 0
    norm_num
    decide
  unfold toFixed2 fixAbs2
  rw [if_neg (by norm_num), h1, h2]
  rfl

/-- **C10.**  `formatCurrency` is total and every result starts with `₦`:
a numeric input is rendered by the two-decimal fixed rendering with the
thousands-separator substitution (so the result always ends in a dot
followed by exactly two digits), and `null`, `undefined` and any
non-parsing string are treated as 0 and yield `₦0.00`. -/
theorem formatCurrency_shape :
    (∀ v, ∃ t, formatCurrency v = "₦" ++ t) ∧
    (∀ q, formatCurrency (.num q) = "₦" ++ commaGroup (toFixed2 q)) ∧
    formatCurrency .nullV = "₦0.00" ∧
    formatCurrency .undef = "₦0.00" ∧
    (∀ s, jsParseFloat s = none → formatCurrency (.str s) = "₦0.00") ∧
    (∀ q, ∃ (pre : String) (a b : Char), a.isDigit = true ∧ b.isDigit = true ∧
      formatCurrency (.num q) = "₦" ++ (pre ++ String.mk ['.', a, b])) := by
  have hzero : ∀ s : String, jsParseFloat s = none →
      ("₦" ++ commaGroup (toFixed2 ((jsParseFloat s).getD 0)) : String) = "₦0.00" := by
    intro s hs
    rw [hs]
    show "₦" ++ commaGroup (toFixed2 0) = "₦0.00"
    rw [toFixed2_zero]
    decide
  refine ⟨?_, fun q => rfl, ?_, ?_, ?_, ?_⟩
  · intro v
    cases v with
    | num q => exact ⟨_, rfl⟩
    | nan => exact ⟨_, rfl⟩
    | str s => exact ⟨_, rfl⟩
    | nullV => exact ⟨_, rfl⟩
    | undef => exact ⟨_, rfl⟩
    | boolV bv => cases bv <;> exact ⟨_, rfl⟩
  · exact hzero "null" (by decide)
  · exact hzero "undefined" (by decide)
  · intro s hs
    exact hzero s hs
  · intro q
    obtain ⟨preL, a, b, hdata, ha, hb⟩ := toFixed2_shape q
    refine ⟨⟨commaAux false preL⟩, a, b, ha, hb, ?_⟩
    have h1 : formatCurrency (.num q) = "₦" ++ commaGroup (toFixed2 q) := rfl
    rw [h1]
    have h2 : commaGroup (toFixed2 q) =
        (⟨commaAux false preL⟩ : String) ++ String.mk ['.', a, b] := by
      unfold commaGroup
      rw [hdata, commaAux_append_dot]
      rfl
    rw [h2]

/-- **C10 witness.**  The non-parsing string "abc" is treated as 0 and
renders as `₦0.00`. -/
theorem formatCurrency_shape_witness : formatCurrency (.str "abc") = "₦0.00" :=
  formatCurrency_shape.2.2.2.2.1 "abc" (by decide)
